import Mathlib

/-!
Verification of the configuration-resolution core of the `janky` project
generator, as a shallow embedding of the Rust sources in Lean 4.

The embedding follows `src/ctx.rs` (value domain, settings combinators,
filters, project data model), `src/main.rs` (version gate, extension-graph
construction, profile-name resolution, fatal-error behaviour) and the
generators `src/gen/cmake.rs`, `src/gen/xcode.rs`, `src/gen/gradle.rs`
(per-platform emission and composed file/setting lists).

Rust `HashMap`s are modelled as association lists whose list order stands
for the map's iteration order; `Cow<[&str]>` is modelled as `List String`;
`Option<T>` scalars stay `Option`; fatal errors (`check`/`fatal`, which
print one diagnostic line and exit with code 1) are modelled with
`Except String`.
-/

namespace Janky

-- Value domain (src/ctx.rs, enums Architecture / PlatformType / TargetType)

inductive Architecture where
  | any
  | x86
  | x64
  | arm
  | arm64
  deriving DecidableEq, Repr, Inhabited

inductive PlatformType where
  | any
  | windows
  | linux
  | macos
  | ios
  | tvos
  | watchos
  | android
  | html5
  deriving DecidableEq, Repr, Inhabited

inductive TargetType where
  | auto
  | none
  | custom
  | console
  | application
  | staticLibrary
  | sharedLibrary
  deriving DecidableEq, Repr, Inhabited

inductive Optimize where
  | none
  | size
  | speed
  | full
  deriving DecidableEq, Repr, Inhabited

inductive CStandard where
  | c89
  | c99
  | c11
  deriving DecidableEq, Repr, Inhabited

inductive CXXStandard where
  | cxx03
  | cxx11
  | cxx14
  | cxx17
  deriving DecidableEq, Repr, Inhabited

-- Build settings (src/ctx.rs, struct Settings)

structure Settings where
  include_dirs : List String := []
  warning_level : Option Nat := Option.none
  warning_as_error : Option Bool := Option.none
  optimize : Option Optimize := Option.none
  strict_aliasing : Option Bool := Option.none
  omit_frame_pointer : Option Bool := Option.none
  defines : List String := []
  undefs : List String := []
  enable_exceptions : Option Bool := Option.none
  enable_rtti : Option Bool := Option.none
  c_standard : Option CStandard := Option.none
  cxx_standard : Option CXXStandard := Option.none
  link_incremental : Option Bool := Option.none
  lib_dirs : List String := []
  libs : List String := []
  android_target_api_level : Option Nat := Option.none
  arm_thumb_mode : Option Bool := Option.none
  deriving DecidableEq, Repr, Inhabited

/-- The derived `Default` value of `Settings` (every scalar absent, every
sequence empty), as produced by `#[derive(Default)]` in src/ctx.rs. -/
def Settings.default : Settings := {}

/-- merge_vecs (src/ctx.rs lines 618-630): if `a` is empty borrow `b`, if
`b` is empty borrow `a`, otherwise copy `a` and append `b`. -/
def merge_vecs (a b : List String) : List String :=
  if a.isEmpty then b
  else if b.isEmpty then a
  else a ++ b

/-- merge_opt_mut (src/ctx.rs lines 599-603): overwrite `a` with `b`'s
value whenever `b` holds one. -/
def merge_opt_mut {α : Type} (a b : Option α) : Option α :=
  match b with
  | Option.some bv => Option.some bv
  | Option.none => a

/-- merge_vecs_mut (src/ctx.rs lines 605-616): if `a` is empty take `b`
(when non-empty), otherwise extend `a` with `b`'s elements. -/
def merge_vecs_mut (a b : List String) : List String :=
  if a.isEmpty then
    if !b.isEmpty then b else a
  else
    if !b.isEmpty then a ++ b else a

/-- Settings::merge (src/ctx.rs lines 527-555), the pure combine of a
primary layer `self` with a fallback layer `o`. The `undefs` line is
transcribed exactly as written in the source, where it reads
`merge_vecs(&self.undefs, &o.defines)`. -/
def Settings.merge (s o : Settings) : Settings :=
  { include_dirs := merge_vecs s.include_dirs o.include_dirs
    warning_level := s.warning_level.or o.warning_level
    warning_as_error := s.warning_as_error.or o.warning_as_error
    optimize := s.optimize.or o.optimize
    strict_aliasing := s.strict_aliasing.or o.strict_aliasing
    omit_frame_pointer := s.omit_frame_pointer.or o.omit_frame_pointer
    defines := merge_vecs s.defines o.defines
    undefs := merge_vecs s.undefs o.defines
    enable_exceptions := s.enable_exceptions.or o.enable_exceptions
    enable_rtti := s.enable_rtti.or o.enable_rtti
    c_standard := s.c_standard.or o.c_standard
    cxx_standard := s.cxx_standard.or o.cxx_standard
    link_incremental := s.link_incremental.or o.link_incremental
    lib_dirs := merge_vecs s.lib_dirs o.lib_dirs
    libs := merge_vecs s.libs o.libs
    android_target_api_level := s.android_target_api_level.or o.android_target_api_level
    arm_thumb_mode := s.arm_thumb_mode.or o.arm_thumb_mode }

/-- Settings::merge_mut (src/ctx.rs lines 503-525), the in-place merge of
the receiver `s` with the layer `o`, returned as the new value of the
receiver. The source assigns every field except `android_target_api_level`
and `arm_thumb_mode`, which are left untouched. -/
def Settings.merge_mut (s o : Settings) : Settings :=
  { include_dirs := merge_vecs_mut s.include_dirs o.include_dirs
    warning_level := merge_opt_mut s.warning_level o.warning_level
    warning_as_error := merge_opt_mut s.warning_as_error o.warning_as_error
    optimize := merge_opt_mut s.optimize o.optimize
    strict_aliasing := merge_opt_mut s.strict_aliasing o.strict_aliasing
    omit_frame_pointer := merge_opt_mut s.omit_frame_pointer o.omit_frame_pointer
    defines := merge_vecs_mut s.defines o.defines
    undefs := merge_vecs_mut s.undefs o.undefs
    enable_exceptions := merge_opt_mut s.enable_exceptions o.enable_exceptions
    enable_rtti := merge_opt_mut s.enable_rtti o.enable_rtti
    c_standard := merge_opt_mut s.c_standard o.c_standard
    cxx_standard := merge_opt_mut s.cxx_standard o.cxx_standard
    link_incremental := merge_opt_mut s.link_incremental o.link_incremental
    lib_dirs := merge_vecs_mut s.lib_dirs o.lib_dirs
    libs := merge_vecs_mut s.libs o.libs
    android_target_api_level := s.android_target_api_level
    arm_thumb_mode := s.arm_thumb_mode }

-- Target filters (src/ctx.rs, struct TargetFilter)

structure TargetFilter where
  platforms : List PlatformType := []
  architectures : List Architecture := []
  deriving DecidableEq, Repr, Inhabited

/-- TargetFilter::matches_platform (src/ctx.rs lines 230-232). -/
def TargetFilter.matches_platform (f : TargetFilter) (p : PlatformType) : Bool :=
  f.platforms.isEmpty || f.platforms.contains p

/-- TargetFilter::matches_architecture (src/ctx.rs lines 234-236). -/
def TargetFilter.matches_architecture (f : TargetFilter) (a : Architecture) : Bool :=
  f.architectures.isEmpty || f.architectures.contains a

-- Project data model (src/ctx.rs, structs Profile / Target / Project)

structure Profile where
  architecture : Architecture := Architecture.any
  platform_type : PlatformType := PlatformType.any
  settings : Settings := Settings.default
  deriving DecidableEq, Repr, Inhabited

/-- `Profiles` models `HashMap<&str, Vec<Profile>>`; the list order stands
for the map's iteration order. -/
abbrev Profiles : Type := List (String × List Profile)

/-- Profile::new (src/ctx.rs lines 302-308). -/
def Profile.new (settings : Settings) : Profile :=
  { architecture := Architecture.any
    platform_type := PlatformType.any
    settings := settings }

structure Target where
  target_type : TargetType := TargetType.auto
  sources : List String := []
  resources : List String := []
  assets : Option String := Option.none
  depends : List String := []
  «extends» : List String := []
  filter : TargetFilter := {}
  settings : Settings := Settings.default
  profiles : Profiles := ([] : List (String × List Profile))
  filters : List (String × List PlatformType) := []
  deriving DecidableEq, Repr, Inhabited

/-- Target::match_file (src/ctx.rs lines 277-282): look up the file's
parent directory in the per-directory platform-exclusion map; no entry
means the file always matches, an entry matches iff it lists the platform. -/
def Target.match_file (t : Target) (parent : String) (platform : PlatformType) : Bool :=
  match t.filters.lookup parent with
  | Option.none => true
  | Option.some f => f.contains platform

structure ProjectInfo where
  name : String := ""
  version : String := ""
  description : String := ""
  min_janky_version : String := ""
  filter : TargetFilter := {}
  settings : Settings := Settings.default
  deriving DecidableEq, Repr, Inhabited

structure Project where
  info : ProjectInfo := {}
  profiles : Profiles := ([] : List (String × List Profile))
  targets : List (String × Target) := []
  deriving DecidableEq, Repr, Inhabited

-- Built-in default profiles (src/ctx.rs lines 471-501)

/-- Settings::debug (src/ctx.rs lines 471-481). -/
def Settings.debug : Settings :=
  { warning_level := Option.some 3
    warning_as_error := Option.some false
    optimize := Option.some Optimize.none
    strict_aliasing := Option.some false
    omit_frame_pointer := Option.some false
    link_incremental := Option.some true }

/-- Settings::release (src/ctx.rs lines 483-493). -/
def Settings.release : Settings :=
  { warning_level := Option.some 3
    warning_as_error := Option.some true
    optimize := Option.some Optimize.full
    strict_aliasing := Option.some true
    omit_frame_pointer := Option.some true
    link_incremental := Option.some false }

/-- Settings::defaults (src/ctx.rs lines 495-501): the two built-in
profiles "Debug" and "Release". -/
def Settings.defaults : Profiles :=
  ([("Debug", [Profile.new Settings.debug]),
    ("Release", [Profile.new Settings.release])] : List (String × List Profile))

-- String ordering. Rust sorts `&str` values byte-wise lexicographically;
-- on valid UTF-8 this coincides with lexicographic order on the code
-- points, which is what `chars_le` computes.

def chars_le : List Char → List Char → Bool
  | [], _ => true
  | _ :: _, [] => false
  | x :: xs, y :: ys =>
    if x.val.toNat < y.val.toNat then true
    else if y.val.toNat < x.val.toNat then false
    else chars_le xs ys

def str_le (a b : String) : Bool :=
  chars_le a.data b.data

/-- Insert a string into a sorted list, keeping it sorted. -/
def insert_sorted (s : String) : List String → List String
  | [] => [s]
  | x :: xs => if str_le s x then s :: x :: xs else x :: insert_sorted s xs

/-- Sorting model for `Vec::sort_unstable` (src/main.rs line 209). Equal
strings are indistinguishable, so every correct sort of a string list
produces the same list; insertion sort is used as the executable model. -/
def sort_strings : List String → List String
  | [] => []
  | x :: xs => insert_sorted x (sort_strings xs)

/-- Model for `Vec::dedup` (src/main.rs line 210): remove consecutive
repeated elements. -/
def dedup_adjacent : List String → List String
  | [] => []
  | [x] => [x]
  | x :: y :: rest =>
    if x = y then dedup_adjacent (y :: rest)
    else x :: dedup_adjacent (y :: rest)

/-- profile_names (src/main.rs lines 200-212): collect the keys of the
built-in default profiles, the project-declared profiles and every
target's declared profiles, in iteration order, then sort and remove
adjacent duplicates. -/
def profile_names (profiles : Profiles) (project : Project) : List String :=
  dedup_adjacent (sort_strings
    (profiles.map Prod.fst ++ project.profiles.map Prod.fst ++
      (project.targets.map (fun t => t.2.profiles.map Prod.fst)).flatten))

-- Version gate (src/main.rs lines 189-198). `semver::Version::parse` is
-- modelled for plain `major.minor.patch` numeric versions, on which the
-- semver order is lexicographic on the three components.

structure Version where
  major : Nat
  minor : Nat
  patch : Nat
  deriving DecidableEq, Repr, Inhabited

/-- Strict semver order on plain numeric versions. -/
def Version.lt (a b : Version) : Bool :=
  decide (a.major < b.major) ||
    (decide (a.major = b.major) &&
      (decide (a.minor < b.minor) ||
        (decide (a.minor = b.minor) && decide (a.patch < b.patch))))

def digit_val (c : Char) : Option Nat :=
  if 48 ≤ c.val.toNat ∧ c.val.toNat ≤ 57 then Option.some (c.val.toNat - 48)
  else Option.none

def parse_nat_chars (cs : List Char) : Option Nat :=
  if cs.isEmpty then Option.none
  else
    cs.foldl
      (fun acc c =>
        match acc, digit_val c with
        | Option.some n, Option.some d => Option.some (n * 10 + d)
        | _, _ => Option.none)
      (Option.some 0)

def split_on_char (sep : Char) : List Char → List (List Char)
  | [] => [[]]
  | c :: rest =>
    let r := split_on_char sep rest
    if c = sep then [] :: r else (c :: r.headD []) :: r.tail

/-- Model of `semver::Version::parse` on plain numeric versions. -/
def parse_version (s : String) : Option Version :=
  match (split_on_char '.' s.data).map parse_nat_chars with
  | [Option.some a, Option.some b, Option.some c] => Option.some ⟨a, b, c⟩
  | _ => Option.none

/-- is_supported (src/main.rs lines 189-198): an empty minimum-version
field always passes; otherwise the field must parse and must not be
strictly newer than the running tool's version `current`. -/
def is_supported (min_version : String) (current : Version) : Except String Unit :=
  if min_version = "" then Except.ok ()
  else
    match parse_version min_version with
    | Option.none => Except.error "Min version check failed"
    | Option.some expected =>
      if Version.lt current expected then
        Except.error "Project does not support this version"
      else Except.ok ()

-- Extension graph (src/main.rs lines 118-134)

/-- Iterator::position over the key sequence (src/main.rs lines 120-121):
the index of the first key equal to `n`. -/
def position_of (keys : List String) (n : String) : Option Nat :=
  match keys with
  | [] => Option.none
  | k :: rest => if k == n then Option.some 0 else (position_of rest n).map (· + 1)

/-- The inner loop of the forward-adjacency construction (src/main.rs
lines 119-123): resolve each name of one target's `extends` list against
the key sequence; an unresolved name is the fatal error raised by `check`. -/
def resolve_extends_names (keys : List String) : List String → Except String (List Nat)
  | [] => Except.ok []
  | n :: rest =>
    match position_of keys n with
    | Option.none => Except.error ("No such target to extend: " ++ n)
    | Option.some i =>
      match resolve_extends_names keys rest with
      | Except.error e => Except.error e
      | Except.ok is => Except.ok (i :: is)

def resolve_extends_rows (keys : List String) :
    List (String × Target) → Except String (List (List Nat))
  | [] => Except.ok []
  | t :: rest =>
    match resolve_extends_names keys t.2.«extends» with
    | Except.error e => Except.error e
    | Except.ok row =>
      match resolve_extends_rows keys rest with
      | Except.error e => Except.error e
      | Except.ok rows => Except.ok (row :: rows)

/-- Forward adjacency (src/main.rs lines 118-124): for each target in
iteration order, resolve each name of its `extends` list to the position
of that name in the target table's key sequence; an unresolved name is a
fatal error. -/
def resolve_extends (targets : List (String × Target)) : Except String (List (List Nat)) :=
  resolve_extends_rows (targets.map Prod.fst) targets

/-- Inverse adjacency (src/main.rs lines 126-134): for each target name,
the indices of the targets whose `extends` list contains that name. -/
def resolve_extended (targets : List (String × Target)) : List (List Nat) :=
  targets.map (fun t =>
    targets.enum.filterMap (fun p =>
      if p.2.2.«extends».contains t.1 then Option.some p.1 else Option.none))

-- The resolution pipeline of main (src/main.rs lines 85-164), restricted
-- to the configuration-resolution core: the version gate, the non-empty
-- target check and the extension-graph construction run, in that order,
-- before the Context is assembled and any command or generator runs.

structure ResolvedCore where
  «extends» : List (List Nat)
  extended : List (List Nat)
  profiles : List String
  deriving DecidableEq, Repr

def main_pipeline (current : Version) (p : Project) : Except String ResolvedCore :=
  match is_supported p.info.min_janky_version current with
  | Except.error e => Except.error e
  | Except.ok _ =>
    if p.targets.isEmpty then Except.error "No targets in project configuration"
    else
      match resolve_extends p.targets with
      | Except.error e => Except.error e
      | Except.ok ext =>
        Except.ok
          { «extends» := ext
            extended := resolve_extended p.targets
            profiles := profile_names Settings.defaults p }

/-- fatal (src/main.rs lines 290-293) prints one diagnostic line to
standard error and exits the process with code 1; a completed run exits
with code 0. -/
def exit_code {α : Type} (r : Except String α) : Nat :=
  match r with
  | Except.ok _ => 0
  | Except.error _ => 1

-- Generator platform gating (src/gen/cmake.rs, src/gen/xcode.rs,
-- src/gen/gradle.rs)

/-- PLATFORMS (src/gen/cmake.rs lines 6-10). -/
def cmake_platforms : List PlatformType :=
  [PlatformType.android, PlatformType.html5, PlatformType.linux]

/-- CMake::run (src/gen/cmake.rs lines 20-44): if the project filter
matches none of the CMake platforms the generator returns early with no
output; otherwise a CMakeLists.txt is written for every (target, platform)
pair whose platform passes the target-level filter. This returns the
platforms for which a given target gets an output. -/
def cmake_target_platforms (p : Project) (t : Target) : List PlatformType :=
  if cmake_platforms.any (fun x => p.info.filter.matches_platform x) then
    cmake_platforms.filter (fun pl => t.filter.matches_platform pl)
  else []

/-- PLATFORMS (src/gen/xcode.rs lines 86-91). -/
def xcode_platforms : List PlatformType :=
  [PlatformType.macos, PlatformType.ios, PlatformType.tvos, PlatformType.watchos]

/-- The supported-platform selection of XCode::run (src/gen/xcode.rs
lines 945-950): a target is built for the platforms that pass both the
project-level and the target-level filter. -/
def xcode_target_platforms (p : Project) (t : Target) : List PlatformType :=
  xcode_platforms.filter (fun pl =>
    p.info.filter.matches_platform pl && t.filter.matches_platform pl)

/-- Gradle::run (src/gen/gradle.rs lines 18-43): outputs exist for a
target iff the project filter matches Android, the target filter matches
Android and the target is an Application. -/
def gradle_emits_target (p : Project) (t : Target) : Bool :=
  p.info.filter.matches_platform PlatformType.android &&
    (t.filter.matches_platform PlatformType.android &&
      t.target_type == TargetType.application)

-- Resolved files and the composed per-target lists (src/gen/cmake.rs
-- lines 175-270, src/gen/vs.rs lines 523-592)

structure FileInfo where
  path : String
  is_file : Bool
  deriving DecidableEq, Repr, Inhabited

/-- FileInfo::extension (src/ctx.rs lines 114-116), the text after the
last dot of the path's final component. -/
def FileInfo.extension (f : FileInfo) : String :=
  let comp := (split_on_char '/' f.path.data).getLastD []
  let parts := split_on_char '.' comp
  if parts.length ≤ 1 then "" else String.mk (parts.getLastD [])

/-- The parent directory of the file's path (Path::parent), used as the
key of the per-directory platform-exclusion map. -/
def FileInfo.parent (f : FileInfo) : String :=
  String.intercalate "/"
    (((split_on_char '/' f.path.data).dropLast).map String.mk)

/-- FileInfo::is_source_no_objc (src/ctx.rs lines 118-123). -/
def FileInfo.is_source_no_objc (f : FileInfo) : Bool :=
  f.is_file && !(f.extension == "m" || f.extension == "mm")

/-- write_sources (src/gen/cmake.rs lines 233-246): the source paths of
one target that survive the Objective-C and per-directory filters, in
their resolved order. -/
def write_sources_list (sources : List FileInfo) (t : Target)
    (platform : PlatformType) : List String :=
  (sources.filter (fun x =>
    x.is_source_no_objc && t.match_file x.parent platform)).map (fun x => x.path)

/-- write_includes (src/gen/cmake.rs lines 248-254). -/
def write_includes_list (t : Target) : List String :=
  t.settings.include_dirs

/-- write_defines (src/gen/cmake.rs lines 256-262). -/
def write_defines_list (t : Target) : List String :=
  t.settings.defines

/-- write_libraries (src/gen/cmake.rs lines 264-270). -/
def write_libraries_list (t : Target) : List String :=
  t.settings.libs

/-- Context::get_target (src/ctx.rs lines 93-95), positional access into
the target table. -/
def target_at (targets : List (String × Target)) (i : Nat) : Target :=
  (targets.getD i ("", {})).2

def sources_at (sources : List (List FileInfo)) (i : Nat) : List FileInfo :=
  sources.getD i []

/-- The source-file section written for target `i` by write_lists_txt
(src/gen/cmake.rs lines 175-181): one block per index of `extends[i]` in
declared order, then the target's own block. -/
def composed_sources (targets : List (String × Target)) (ext : List (List Nat))
    (sources : List (List FileInfo)) (platform : PlatformType) (i : Nat) : List String :=
  ((ext.getD i []).map (fun j =>
    write_sources_list (sources_at sources j) (target_at targets j) platform)).flatten ++
    write_sources_list (sources_at sources i) (target_at targets i) platform

/-- The include-directory section written for target `i` by
write_lists_txt (src/gen/cmake.rs lines 187-191). -/
def composed_includes (targets : List (String × Target)) (ext : List (List Nat))
    (i : Nat) : List String :=
  ((ext.getD i []).map (fun j => write_includes_list (target_at targets j))).flatten ++
    write_includes_list (target_at targets i)

/-- The link-library section written for target `i` by write_lists_txt
(src/gen/cmake.rs lines 199-203). -/
def composed_libs (targets : List (String × Target)) (ext : List (List Nat))
    (i : Nat) : List String :=
  ((ext.getD i []).map (fun j => write_libraries_list (target_at targets j))).flatten ++
    write_libraries_list (target_at targets i)

/-- The preprocessor-define section written for target `i` by
write_lists_txt (src/gen/cmake.rs lines 210-214). -/
def composed_defines (targets : List (String × Target)) (ext : List (List Nat))
    (i : Nat) : List String :=
  ((ext.getD i []).map (fun j => write_defines_list (target_at targets j))).flatten ++
    write_defines_list (target_at targets i)

-- Facts about the sequence combinators

lemma merge_vecs_eq_append (a b : List String) : merge_vecs a b = a ++ b := by
  unfold merge_vecs
  split_ifs with h1 h2
  · simp [List.isEmpty_iff.mp h1]
  · simp [List.isEmpty_iff.mp h2]
  · rfl

lemma merge_vecs_mut_eq_append (a b : List String) : merge_vecs_mut a b = a ++ b := by
  unfold merge_vecs_mut
  split_ifs with h1 h2 h3 <;>
    simp_all [List.isEmpty_iff]

-- Facts about the string order

lemma chars_le_total : ∀ a b : List Char, chars_le a b = true ∨ chars_le b a = true
  | [], _ => Or.inl rfl
  | _ :: _, [] => Or.inr rfl
  | x :: xs, y :: ys => by
    simp only [chars_le]
    rcases Nat.lt_trichotomy x.val.toNat y.val.toNat with h | h | h
    · left
      simp [h]
    · have hx : ¬ x.val.toNat < y.val.toNat := by omega
      have hy : ¬ y.val.toNat < x.val.toNat := by omega
      rcases chars_le_total xs ys with ih | ih
      · left
        simp [hx, hy, ih]
      · right
        simp [hx, hy, ih]
    · right
      simp [h]

lemma chars_le_trans : ∀ a b c : List Char,
    chars_le a b = true → chars_le b c = true → chars_le a c = true
  | [], _, _, _, _ => rfl
  | _ :: _, [], _, h1, _ => by simp [chars_le] at h1
  | _ :: _, _ :: _, [], _, h2 => by simp [chars_le] at h2
  | x :: xs, y :: ys, z :: zs, h1, h2 => by
    simp only [chars_le] at h1 h2 ⊢
    by_cases hxy : x.val.toNat < y.val.toNat
    · by_cases hyz : y.val.toNat < z.val.toNat
      · have hxz : x.val.toNat < z.val.toNat := lt_trans hxy hyz
        simp [hxz]
      · by_cases hzy : z.val.toNat < y.val.toNat
        · simp [hyz, hzy] at h2
        · have hxz : x.val.toNat < z.val.toNat := by omega
          simp [hxz]
    · by_cases hyx : y.val.toNat < x.val.toNat
      · simp [hxy, hyx] at h1
      · simp only [hxy, hyx, if_false] at h1
        by_cases hyz : y.val.toNat < z.val.toNat
        · have hxz : x.val.toNat < z.val.toNat := by omega
          simp [hxz]
        · by_cases hzy : z.val.toNat < y.val.toNat
          · simp [hyz, hzy] at h2
          · simp only [hyz, hzy, if_false] at h2
            have hxz : ¬ x.val.toNat < z.val.toNat := by omega
            have hzx : ¬ z.val.toNat < x.val.toNat := by omega
            simp only [hxz, hzx, if_false]
            exact chars_le_trans xs ys zs h1 h2

lemma chars_le_antisymm : ∀ a b : List Char,
    chars_le a b = true → chars_le b a = true → a = b
  | [], [], _, _ => rfl
  | [], _ :: _, _, h2 => by simp [chars_le] at h2
  | _ :: _, [], h1, _ => by simp [chars_le] at h1
  | x :: xs, y :: ys, h1, h2 => by
    simp only [chars_le] at h1 h2
    by_cases hxy : x.val.toNat < y.val.toNat
    · have hyx : ¬ y.val.toNat < x.val.toNat := by omega
      simp [hxy, hyx] at h2
    · by_cases hyx : y.val.toNat < x.val.toNat
      · simp [hxy, hyx] at h1
      · have hnat : x.val.toNat = y.val.toNat := by omega
        have hval : x.val = y.val := UInt32.eq_of_val_eq (Fin.ext hnat)
        have hchar : x = y := Char.ext hval
        simp only [hxy, hyx, if_false] at h1 h2
        rw [hchar, chars_le_antisymm xs ys h1 h2]

/-- The ordering on strings as a proposition. -/
def le_str (a b : String) : Prop := str_le a b = true

instance : DecidableRel le_str := fun a b =>
  inferInstanceAs (Decidable (str_le a b = true))

lemma le_str_total (a b : String) : le_str a b ∨ le_str b a :=
  chars_le_total a.data b.data

lemma le_str_trans {a b c : String} (h1 : le_str a b) (h2 : le_str b c) : le_str a c :=
  chars_le_trans a.data b.data c.data h1 h2

lemma le_str_antisymm {a b : String} (h1 : le_str a b) (h2 : le_str b a) : a = b :=
  String.ext (chars_le_antisymm a.data b.data h1 h2)

-- Facts about the sorting model

lemma perm_insert_sorted (s : String) (l : List String) :
    (insert_sorted s l).Perm (s :: l) := by
  induction l with
  | nil => exact List.Perm.refl _
  | cons x xs ih =>
    simp only [insert_sorted]
    split
    · exact List.Perm.refl _
    · exact (ih.cons x).trans (List.Perm.swap s x xs)

lemma perm_sort_strings (l : List String) : (sort_strings l).Perm l := by
  induction l with
  | nil => exact List.Perm.refl _
  | cons x xs ih =>
    exact (perm_insert_sorted x (sort_strings xs)).trans (ih.cons x)

lemma sorted_insert_sorted (s : String) (l : List String)
    (h : l.Sorted le_str) : (insert_sorted s l).Sorted le_str := by
  induction l with
  | nil => simp [insert_sorted, List.sorted_singleton]
  | cons x xs ih =>
    rcases List.sorted_cons.mp h with ⟨hx, hxs⟩
    simp only [insert_sorted]
    split_ifs with hs
    · refine List.sorted_cons.mpr ⟨?_, h⟩
      intro b hb
      rcases List.mem_cons.mp hb with rfl | hb
      · exact hs
      · exact le_str_trans hs (hx b hb)
    · have hxle : le_str x s := (le_str_total s x).resolve_left hs
      refine List.sorted_cons.mpr ⟨?_, ih hxs⟩
      intro b hb
      have hb' : b ∈ s :: xs := (perm_insert_sorted s xs).mem_iff.mp hb
      rcases List.mem_cons.mp hb' with rfl | hb'
      · exact hxle
      · exact hx b hb'

lemma sorted_sort_strings (l : List String) : (sort_strings l).Sorted le_str := by
  induction l with
  | nil => exact List.sorted_nil
  | cons x xs ih => exact sorted_insert_sorted x (sort_strings xs) ih

lemma sort_strings_eq_of_perm {l₁ l₂ : List String} (h : l₁.Perm l₂) :
    sort_strings l₁ = sort_strings l₂ :=
  @List.eq_of_perm_of_sorted _ le_str ⟨fun _ _ h1 h2 => le_str_antisymm h1 h2⟩ _ _
    ((perm_sort_strings l₁).trans (h.trans (perm_sort_strings l₂).symm))
    (sorted_sort_strings l₁) (sorted_sort_strings l₂)

-- Facts about adjacent deduplication

lemma dedup_adjacent_sublist : ∀ l : List String, (dedup_adjacent l).Sublist l
  | [] => List.Sublist.refl _
  | [_] => List.Sublist.refl _
  | x :: y :: rest => by
    simp only [dedup_adjacent]
    split_ifs with hxy
    · exact (dedup_adjacent_sublist (y :: rest)).cons x
    · exact (dedup_adjacent_sublist (y :: rest)).cons₂ x

lemma mem_dedup_adjacent : ∀ (l : List String) (a : String),
    a ∈ dedup_adjacent l ↔ a ∈ l
  | [], _ => Iff.rfl
  | [_], _ => Iff.rfl
  | x :: y :: rest, a => by
    simp only [dedup_adjacent]
    split_ifs with hxy
    · subst hxy
      rw [mem_dedup_adjacent (x :: rest) a]
      simp only [List.mem_cons]
      tauto
    · simp only [List.mem_cons, mem_dedup_adjacent (y :: rest) a]

lemma sorted_dedup_adjacent (l : List String) (h : l.Sorted le_str) :
    (dedup_adjacent l).Sorted le_str :=
  List.Pairwise.sublist (dedup_adjacent_sublist l) h

lemma nodup_dedup_adjacent : ∀ l : List String, l.Sorted le_str →
    (dedup_adjacent l).Nodup
  | [], _ => List.Pairwise.nil
  | [x], _ => List.nodup_singleton x
  | x :: y :: rest, h => by
    have h' : (y :: rest).Sorted le_str := (List.sorted_cons.mp h).2
    simp only [dedup_adjacent]
    split_ifs with hxy
    · exact nodup_dedup_adjacent (y :: rest) h'
    · refine List.Pairwise.cons ?_ (nodup_dedup_adjacent (y :: rest) h')
      intro b hb
      have hbmem : b ∈ y :: rest := (mem_dedup_adjacent _ _).mp hb
      rcases List.mem_cons.mp hbmem with rfl | hbr
      · exact hxy
      · intro heq
        have h1 : le_str x y := (List.sorted_cons.mp h).1 y (List.mem_cons_self y rest)
        have h2 : le_str y b := (List.sorted_cons.mp h').1 b hbr
        subst heq
        exact hxy (le_str_antisymm h1 h2)

-- Facts about profile-name resolution

/-- The concatenated key sequence collected by profile_names before
sorting. -/
def collected_profile_keys (profiles : Profiles) (project : Project) : List String :=
  profiles.map Prod.fst ++ project.profiles.map Prod.fst ++
    (project.targets.map (fun t => t.2.profiles.map Prod.fst)).flatten

lemma profile_names_eq (profiles : Profiles) (project : Project) :
    profile_names profiles project =
      dedup_adjacent (sort_strings (collected_profile_keys profiles project)) := rfl

lemma profile_names_sorted (profiles : Profiles) (project : Project) :
    (profile_names profiles project).Sorted le_str :=
  sorted_dedup_adjacent _ (sorted_sort_strings _)

lemma profile_names_nodup (profiles : Profiles) (project : Project) :
    (profile_names profiles project).Nodup :=
  nodup_dedup_adjacent _ (sorted_sort_strings _)

lemma mem_profile_names (profiles : Profiles) (project : Project) (a : String) :
    a ∈ profile_names profiles project ↔ a ∈ collected_profile_keys profiles project := by
  rw [profile_names_eq, mem_dedup_adjacent]
  exact (perm_sort_strings _).mem_iff

lemma profile_names_eq_of_perm {profiles₁ profiles₂ : Profiles}
    {p₁ p₂ : Project}
    (hp : profiles₁.Perm profiles₂)
    (hd : p₁.profiles.Perm p₂.profiles)
    (ht : p₁.targets.Perm p₂.targets) :
    profile_names profiles₁ p₁ = profile_names profiles₂ p₂ := by
  rw [profile_names_eq, profile_names_eq]
  congr 1
  apply sort_strings_eq_of_perm
  exact ((hp.map Prod.fst).append (hd.map Prod.fst)).append
    ((ht.map (fun t => t.2.profiles.map Prod.fst)).flatten)

-- Facts about the option combinators

lemma or_ite {α : Type} (x y : Option α) : x.or y = if x.isSome then x else y := by
  cases x <;> rfl

lemma merge_opt_mut_eq {α : Type} (a b : Option α) :
    merge_opt_mut a b = if b.isSome then b else a := by
  cases b <;> rfl

-- Facts about the extension-graph construction

lemma position_of_eq_none (keys : List String) (n : String) (h : n ∉ keys) :
    position_of keys n = Option.none := by
  induction keys with
  | nil => rfl
  | cons k rest ih =>
    simp only [position_of]
    rw [if_neg, ih (fun hm => h (List.mem_cons_of_mem k hm))]
    · rfl
    · simp only [beq_iff_eq]
      intro hk
      exact h (hk ▸ List.mem_cons_self k rest)

lemma resolve_extends_names_error (keys : List String) :
    ∀ names : List String, (∃ e ∈ names, e ∉ keys) →
      ∃ msg, resolve_extends_names keys names = Except.error msg := by
  intro names
  induction names with
  | nil =>
    rintro ⟨e, he, -⟩
    cases he
  | cons n rest ih =>
    rintro ⟨e, he, hek⟩
    rcases List.mem_cons.mp he with rfl | her
    · refine ⟨"No such target to extend: " ++ e, ?_⟩
      simp only [resolve_extends_names, position_of_eq_none keys e hek]
    · simp only [resolve_extends_names]
      cases hpos : position_of keys n with
      | none => exact ⟨_, rfl⟩
      | some i =>
        rcases ih ⟨e, her, hek⟩ with ⟨msg, hmsg⟩
        rw [hmsg]
        exact ⟨msg, rfl⟩

lemma resolve_extends_rows_error (keys : List String) :
    ∀ targets : List (String × Target),
      (∃ t ∈ targets, ∃ e ∈ t.2.«extends», e ∉ keys) →
      ∃ msg, resolve_extends_rows keys targets = Except.error msg := by
  intro targets
  induction targets with
  | nil =>
    rintro ⟨t, ht, -⟩
    cases ht
  | cons t rest ih =>
    rintro ⟨u, hu, he⟩
    rcases List.mem_cons.mp hu with rfl | hur
    · rcases resolve_extends_names_error keys u.2.«extends» he with ⟨msg, hmsg⟩
      exact ⟨msg, by simp only [resolve_extends_rows, hmsg]⟩
    · simp only [resolve_extends_rows]
      cases hn : resolve_extends_names keys t.2.«extends» with
      | error e => exact ⟨e, rfl⟩
      | ok row =>
        rcases ih ⟨u, hur, he⟩ with ⟨msg, hmsg⟩
        rw [hmsg]
        exact ⟨msg, rfl⟩

lemma resolve_extends_error_of_unresolved (targets : List (String × Target))
    (h : ∃ t ∈ targets, ∃ e ∈ t.2.«extends», e ∉ targets.map Prod.fst) :
    ∃ msg, resolve_extends targets = Except.error msg :=
  resolve_extends_rows_error (targets.map Prod.fst) targets h

lemma main_pipeline_error_of_extends_error (current : Version) (p : Project)
    (hver : is_supported p.info.min_janky_version current = Except.ok ())
    (hne : p.targets ≠ [])
    (msg : String) (hext : resolve_extends p.targets = Except.error msg) :
    main_pipeline current p = Except.error msg := by
  unfold main_pipeline
  rw [hver]
  rw [if_neg (by simpa [List.isEmpty_iff] using hne)]
  rw [hext]

-- Concrete inputs used by the claim theorems

/-- A settings layer whose only contents are one undef and one define. -/
def c1_b : Settings := { undefs := ["U"], defines := ["D"] }

def c2_tA : Target := {}

def c2_tB : Target := { «extends» := ["A"] }

/-- Two association lists describing the same two-target mapping with
different iteration orders. -/
def c2_order1 : List (String × Target) := [("A", c2_tA), ("B", c2_tB)]

def c2_order2 : List (String × Target) := [("B", c2_tB), ("A", c2_tA)]

def c2_proj1 : Project :=
  { targets := [("A", { profiles := [("Extra", [])] }), ("B", {})] }

def c2_proj2 : Project :=
  { targets := [("B", {}), ("A", { profiles := [("Extra", [])] })] }

/-- A project whose filter admits only Android. -/
def c3_proj : Project :=
  { info := { filter := { platforms := [PlatformType.android] } } }

/-- An application target with no filter of its own. -/
def c3_tgt : Target := { target_type := TargetType.application }

-- Claim theorems

/-- C1: the claim states that every ordered string-sequence field of
`combine(a, b)` — include_dirs, defines, undefs, lib_dirs, libs — equals
`a`'s sequence for that same field followed by `b`'s. The code violates
this for `undefs`: Settings::merge computes the result's `undefs` from
`o.defines` (src/ctx.rs line 539), so with `a` empty and
`b = {undefs: ["U"], defines: ["D"]}` the merged `undefs` is `["D"]`
instead of the claimed `["U"]`. The other four sequence fields do satisfy
the claim. -/
theorem claim_C1 :
    (Settings.default.merge c1_b).undefs = ["D"] ∧
    Settings.default.undefs ++ c1_b.undefs = ["U"] ∧
    (Settings.default.merge c1_b).undefs ≠ Settings.default.undefs ++ c1_b.undefs ∧
    (∀ a b : Settings,
      (a.merge b).include_dirs = a.include_dirs ++ b.include_dirs ∧
      (a.merge b).defines = a.defines ++ b.defines ∧
      (a.merge b).lib_dirs = a.lib_dirs ++ b.lib_dirs ∧
      (a.merge b).libs = a.libs ++ b.libs ∧
      (a.merge b).undefs = a.undefs ++ b.defines) := by
  refine ⟨rfl, rfl, by decide, fun a b => ?_⟩
  exact ⟨merge_vecs_eq_append _ _, merge_vecs_eq_append _ _,
    merge_vecs_eq_append _ _, merge_vecs_eq_append _ _, merge_vecs_eq_append _ _⟩

/-- C2 counterexample: the forward-adjacency array is not invariant under
a permutation of the target mapping's iteration order, so an observable
output of resolution depends on how the unordered target mapping is
iterated. The same two-target document iterated as [A, B] yields
`extends = [[], [0]]` but iterated as [B, A] yields `[[1], []]`. -/
theorem claim_C2_counterexample :
    ¬ ∀ (l₁ l₂ : List (String × Target)), l₁.Perm l₂ →
        resolve_extends l₁ = resolve_extends l₂ := by
  intro h
  have heq := h c2_order1 c2_order2 (by decide)
  rw [show resolve_extends c2_order1 = Except.ok [[], [0]] from rfl,
      show resolve_extends c2_order2 = Except.ok [[1], []] from rfl] at heq
  injection heq with heq'
  exact absurd heq' (by decide)

/-- C2 amended: the resolved profile-name list is independent of the
iteration order of the unordered default/project/target mappings (the
extends and extended arrays, by contrast, are positional in the target
mapping's iteration order and change with it, as the counterexample
shows). -/
theorem claim_C2 :
    ∀ (d₁ d₂ : Profiles) (p₁ p₂ : Project),
      d₁.Perm d₂ → p₁.profiles.Perm p₂.profiles → p₁.targets.Perm p₂.targets →
      profile_names d₁ p₁ = profile_names d₂ p₂ :=
  fun _ _ _ _ hd hp ht => profile_names_eq_of_perm hd hp ht

theorem claim_C2_witness :
    profile_names Settings.defaults c2_proj1 = profile_names Settings.defaults c2_proj2 :=
  claim_C2 Settings.defaults Settings.defaults c2_proj1 c2_proj2
    (List.Perm.refl _) (List.Perm.refl _) (by decide)

/-- C3 counterexample: in the CMake generator, (target, platform)
eligibility is not the conjunction of the project-level and the
target-level filter at that platform. With a project filter allowing only
Android and an unfiltered target, a CMakeLists.txt is still emitted for
Linux, although the project filter does not match Linux: CMake::run
(src/gen/cmake.rs lines 20-28) checks the project filter only once,
against any of its supported platforms. -/
theorem claim_C3_counterexample :
    ¬ ∀ (p : Project) (t : Target) (pl : PlatformType), pl ∈ cmake_platforms →
        (pl ∈ cmake_target_platforms p t ↔
          p.info.filter.matches_platform pl = true ∧
            t.filter.matches_platform pl = true) := by
  intro h
  have hmem := (h c3_proj c3_tgt PlatformType.linux (by decide)).mp (by decide)
  exact absurd hmem.1 (by decide)

/-- C3 amended: the Xcode generator builds (target, platform) exactly when
both the project-level and the target-level filter match that platform;
the CMake generator instead emits for every supported platform passing the
target-level filter, provided the project-level filter matches at least
one CMake-supported platform; the Gradle generator requires both filters
to match Android and the target to be an Application. Platform and
architecture eligibility are evaluated independently. -/
theorem claim_C3 :
    (∀ (p : Project) (t : Target) (pl : PlatformType),
      pl ∈ xcode_target_platforms p t ↔
        pl ∈ xcode_platforms ∧ p.info.filter.matches_platform pl = true ∧
          t.filter.matches_platform pl = true) ∧
    (∀ (p : Project) (t : Target) (pl : PlatformType),
      pl ∈ cmake_target_platforms p t ↔
        (∃ q ∈ cmake_platforms, p.info.filter.matches_platform q = true) ∧
          pl ∈ cmake_platforms ∧ t.filter.matches_platform pl = true) ∧
    (∀ (p : Project) (t : Target),
      gradle_emits_target p t = true ↔
        p.info.filter.matches_platform PlatformType.android = true ∧
          t.filter.matches_platform PlatformType.android = true ∧
          t.target_type = TargetType.application) ∧
    (∀ (pls : List PlatformType) (ars ars' : List Architecture) (pl : PlatformType),
      (TargetFilter.mk pls ars).matches_platform pl =
        (TargetFilter.mk pls ars').matches_platform pl) ∧
    (∀ (pls pls' : List PlatformType) (ars : List Architecture) (a : Architecture),
      (TargetFilter.mk pls ars).matches_architecture a =
        (TargetFilter.mk pls' ars).matches_architecture a) := by
  refine ⟨?_, ?_, ?_, fun _ _ _ _ => rfl, fun _ _ _ _ => rfl⟩
  · intro p t pl
    simp [xcode_target_platforms, List.mem_filter, Bool.and_eq_true, and_assoc]
  · intro p t pl
    unfold cmake_target_platforms
    split_ifs with h
    · rw [List.any_eq_true] at h
      simp [List.mem_filter, h]
    · rw [List.any_eq_true] at h
      simp only [List.not_mem_nil, false_iff]
      rintro ⟨hex, -⟩
      exact h hex
  · intro p t
    simp [gradle_emits_target, Bool.and_eq_true, beq_iff_eq]

def c4_core : Target := { settings := { defines := ["CORE"] } }

def c4_app : Target := { «extends» := ["core"], settings := { defines := ["APP"] } }

def c4_targets : List (String × Target) := [("core", c4_core), ("app", c4_app)]

/-- The resolved source files of the two C4 targets, in target order. -/
def c4_sources : List (List FileInfo) :=
  [[⟨"core/a.cpp", true⟩, ⟨"core/b.cpp", true⟩], [⟨"app/main.cpp", true⟩]]

/-- C4: the composed file/setting set emitted for target `i` concatenates,
for each index of `extends[i]` in declared order and then for target `i`
itself, the source files, include dirs, defines and libs, in that order;
in the worked example, "app" extending "core" composes defines
["CORE", "APP"] and sources core-files-then-app-files. -/
theorem claim_C4 :
    (∀ (targets : List (String × Target)) (ext : List (List Nat))
        (sources : List (List FileInfo)) (platform : PlatformType) (i : Nat),
      composed_sources targets ext sources platform i =
        ((ext.getD i []).map (fun j =>
          write_sources_list (sources_at sources j) (target_at targets j) platform)).flatten ++
          write_sources_list (sources_at sources i) (target_at targets i) platform ∧
      composed_includes targets ext i =
        ((ext.getD i []).map (fun j => (target_at targets j).settings.include_dirs)).flatten ++
          (target_at targets i).settings.include_dirs ∧
      composed_defines targets ext i =
        ((ext.getD i []).map (fun j => (target_at targets j).settings.defines)).flatten ++
          (target_at targets i).settings.defines ∧
      composed_libs targets ext i =
        ((ext.getD i []).map (fun j => (target_at targets j).settings.libs)).flatten ++
          (target_at targets i).settings.libs) ∧
    resolve_extends c4_targets = Except.ok [[], [0]] ∧
    composed_defines c4_targets [[], [0]] 1 = ["CORE", "APP"] ∧
    composed_sources c4_targets [[], [0]] c4_sources PlatformType.linux 1 =
      ["core/a.cpp", "core/b.cpp", "app/main.cpp"] :=
  ⟨fun _ _ _ _ _ => ⟨rfl, rfl, rfl, rfl⟩, rfl, rfl, rfl⟩

/-- The C5 example project: no project-level profiles, target A declaring
"Custom", target B declaring nothing. -/
def c5_proj : Project :=
  { targets := [("A", { profiles := [("Custom", [])] }), ("B", {})] }

/-- The C5 example project with its targets in the other iteration order. -/
def c5_proj_swapped : Project :=
  { targets := [("B", {}), ("A", { profiles := [("Custom", [])] })] }

/-- C5: the resolved profile-name list is sorted and duplicate-free, its
members are exactly the union of the built-in default names, the
project-declared names and every target's declared names, the result is
invariant under permutation of target declaration order and of each input
list's internal order, and the worked example resolves to
["Custom", "Debug", "Release"]. -/
theorem claim_C5 :
    (∀ p : Project,
      (profile_names Settings.defaults p).Sorted le_str ∧
      (profile_names Settings.defaults p).Nodup ∧
      (∀ s, s ∈ profile_names Settings.defaults p ↔
        (s ∈ Settings.defaults.map Prod.fst ∨ s ∈ p.profiles.map Prod.fst ∨
          ∃ t ∈ p.targets, s ∈ t.2.profiles.map Prod.fst))) ∧
    (∀ (d₁ d₂ : Profiles) (p₁ p₂ : Project),
      d₁.Perm d₂ → p₁.profiles.Perm p₂.profiles → p₁.targets.Perm p₂.targets →
      profile_names d₁ p₁ = profile_names d₂ p₂) ∧
    Settings.defaults.map Prod.fst = ["Debug", "Release"] ∧
    profile_names Settings.defaults c5_proj = ["Custom", "Debug", "Release"] := by
  refine ⟨fun p => ⟨profile_names_sorted _ _, profile_names_nodup _ _, fun s => ?_⟩,
    fun _ _ _ _ hd hp ht => profile_names_eq_of_perm hd hp ht, rfl, rfl⟩
  rw [mem_profile_names]
  simp only [collected_profile_keys, List.mem_append, List.mem_flatten, List.mem_map]
  constructor
  · rintro ((h | h) | ⟨l, ⟨t, ht, rfl⟩, hs⟩)
    · exact Or.inl h
    · exact Or.inr (Or.inl h)
    · exact Or.inr (Or.inr ⟨t, ht, List.mem_map.mp hs⟩)
  · rintro (h | h | ⟨t, ht, hs⟩)
    · exact Or.inl (Or.inl h)
    · exact Or.inl (Or.inr h)
    · exact Or.inr ⟨_, ⟨t, ht, rfl⟩, List.mem_map.mpr hs⟩

theorem claim_C5_witness :
    profile_names Settings.defaults c5_proj = profile_names Settings.defaults c5_proj_swapped :=
  claim_C5.2.1 Settings.defaults Settings.defaults c5_proj c5_proj_swapped
    (List.Perm.refl _) (List.Perm.refl _) (by decide)

def c6_a : Settings := { optimize := Option.some Optimize.full }

def c6_b : Settings := { optimize := Option.some Optimize.none }

/-- C6: every scalar field of `combine(a, b)` equals `a`'s value when
present, else `b`'s value, for all twelve scalar fields of Settings; in
particular combine is not commutative, as the Full/None optimize example
shows. -/
theorem claim_C6 :
    (∀ a b : Settings,
      (a.merge b).warning_level =
        (if a.warning_level.isSome then a.warning_level else b.warning_level) ∧
      (a.merge b).warning_as_error =
        (if a.warning_as_error.isSome then a.warning_as_error else b.warning_as_error) ∧
      (a.merge b).optimize = (if a.optimize.isSome then a.optimize else b.optimize) ∧
      (a.merge b).strict_aliasing =
        (if a.strict_aliasing.isSome then a.strict_aliasing else b.strict_aliasing) ∧
      (a.merge b).omit_frame_pointer =
        (if a.omit_frame_pointer.isSome then a.omit_frame_pointer else b.omit_frame_pointer) ∧
      (a.merge b).enable_exceptions =
        (if a.enable_exceptions.isSome then a.enable_exceptions else b.enable_exceptions) ∧
      (a.merge b).enable_rtti =
        (if a.enable_rtti.isSome then a.enable_rtti else b.enable_rtti) ∧
      (a.merge b).c_standard =
        (if a.c_standard.isSome then a.c_standard else b.c_standard) ∧
      (a.merge b).cxx_standard =
        (if a.cxx_standard.isSome then a.cxx_standard else b.cxx_standard) ∧
      (a.merge b).link_incremental =
        (if a.link_incremental.isSome then a.link_incremental else b.link_incremental) ∧
      (a.merge b).android_target_api_level =
        (if a.android_target_api_level.isSome then a.android_target_api_level
          else b.android_target_api_level) ∧
      (a.merge b).arm_thumb_mode =
        (if a.arm_thumb_mode.isSome then a.arm_thumb_mode else b.arm_thumb_mode)) ∧
    (c6_a.merge c6_b).optimize = Option.some Optimize.full ∧
    (c6_b.merge c6_a).optimize = Option.some Optimize.none :=
  ⟨fun _ _ =>
    ⟨or_ite _ _, or_ite _ _, or_ite _ _, or_ite _ _, or_ite _ _, or_ite _ _,
      or_ite _ _, or_ite _ _, or_ite _ _, or_ite _ _, or_ite _ _, or_ite _ _⟩,
    rfl, rfl⟩

def c7_f : TargetFilter := { platforms := [PlatformType.linux] }

/-- C7: for concrete (non-wildcard) arguments, matches_platform and
matches_architecture return true unconditionally when the corresponding
allow-list is empty, and otherwise return membership. -/
theorem claim_C7 :
    ∀ (f : TargetFilter) (p : PlatformType) (a : Architecture),
      p ≠ PlatformType.any → a ≠ Architecture.any →
      ((f.platforms = [] → f.matches_platform p = true) ∧
       (f.platforms ≠ [] → (f.matches_platform p = true ↔ p ∈ f.platforms)) ∧
       (f.architectures = [] → f.matches_architecture a = true) ∧
       (f.architectures ≠ [] → (f.matches_architecture a = true ↔ a ∈ f.architectures))) := by
  intro f p a _ _
  refine ⟨?_, ?_, ?_, ?_⟩
  · intro h
    simp [TargetFilter.matches_platform, h]
  · intro h
    simp [TargetFilter.matches_platform, List.isEmpty_iff, h]
  · intro h
    simp [TargetFilter.matches_architecture, h]
  · intro h
    simp [TargetFilter.matches_architecture, List.isEmpty_iff, h]

theorem claim_C7_witness :
    (c7_f.matches_platform PlatformType.linux = true ↔
      PlatformType.linux ∈ c7_f.platforms) ∧
    c7_f.matches_architecture Architecture.x64 = true :=
  ⟨(claim_C7 c7_f PlatformType.linux Architecture.x64 (by decide) (by decide)).2.1
      (by decide),
    (claim_C7 c7_f PlatformType.linux Architecture.x64 (by decide) (by decide)).2.2.1
      rfl⟩

/-- A project whose only target extends an undeclared name. -/
def c8_proj : Project :=
  { targets := [("A", { «extends» := ["nope"] })] }

/-- C8: a project in which some target's extends list names an undeclared
target aborts resolution with a fatal reference error and process exit
code 1, before any generator runs, so no output is produced. The version
gate and the non-empty-target check run first in main, so they are
assumed to pass. -/
theorem claim_C8 :
    ∀ (current : Version) (p : Project),
      is_supported p.info.min_janky_version current = Except.ok () →
      p.targets ≠ [] →
      (∃ t ∈ p.targets, ∃ e ∈ t.2.«extends», e ∉ p.targets.map Prod.fst) →
      ∃ msg, main_pipeline current p = Except.error msg ∧
        exit_code (main_pipeline current p) = 1 := by
  intro current p hver hne hbad
  rcases resolve_extends_error_of_unresolved p.targets hbad with ⟨msg, hmsg⟩
  have h := main_pipeline_error_of_extends_error current p hver hne msg hmsg
  exact ⟨msg, h, by rw [h]; rfl⟩

theorem claim_C8_witness :
    main_pipeline ⟨0, 1, 0⟩ c8_proj =
      Except.error "No such target to extend: nope" ∧
    exit_code (main_pipeline ⟨0, 1, 0⟩ c8_proj) = 1 := by
  rcases claim_C8 ⟨0, 1, 0⟩ c8_proj rfl (by decide) (by decide) with ⟨msg, -, h2⟩
  exact ⟨rfl, h2⟩

def c9_proj : Project :=
  { info := { min_janky_version := "2.0.0" }
    targets := [("A", {})] }

/-- C9: a declared minimum tool version that parses and is strictly newer
than the running tool's version fails the run fatally with exit code 1,
while an absent (empty) minimum-version field always passes the check. -/
theorem claim_C9 :
    (∀ (s : String) (current expected : Version),
      parse_version s = Option.some expected →
      Version.lt current expected = true →
      ∃ e, is_supported s current = Except.error e ∧
        ∀ p : Project, p.info.min_janky_version = s →
          main_pipeline current p = Except.error e ∧
          exit_code (main_pipeline current p) = 1) ∧
    (∀ current : Version, is_supported "" current = Except.ok ()) := by
  constructor
  · intro s current expected hp hlt
    have hs : ¬ s = "" := by
      intro h
      subst h
      rw [show parse_version "" = Option.none from rfl] at hp
      cases hp
    have herr : is_supported s current =
        Except.error "Project does not support this version" := by
      unfold is_supported
      rw [if_neg hs, hp]
      simp only [hlt, if_true]
    refine ⟨_, herr, fun p hmin => ?_⟩
    have hmp : main_pipeline current p =
        Except.error "Project does not support this version" := by
      unfold main_pipeline
      rw [hmin, herr]
    exact ⟨hmp, by rw [hmp]; rfl⟩
  · intro current
    rfl

theorem claim_C9_witness :
    parse_version "2.0.0" = Option.some ⟨2, 0, 0⟩ ∧
    Version.lt ⟨1, 0, 0⟩ ⟨2, 0, 0⟩ = true ∧
    is_supported "2.0.0" ⟨1, 0, 0⟩ =
      Except.error "Project does not support this version" ∧
    exit_code (main_pipeline ⟨1, 0, 0⟩ c9_proj) = 1 := by
  rcases claim_C9.1 "2.0.0" ⟨1, 0, 0⟩ ⟨2, 0, 0⟩ rfl (by decide) with ⟨e, he, hall⟩
  rcases hall c9_proj rfl with ⟨-, h2⟩
  exact ⟨rfl, by decide, rfl, h2⟩

/-- C10: the in-place merge merge_mut(a, o) gives precedence to the
argument layer `o` on every scalar field it assigns — `o`'s value wins
whenever present, otherwise `a`'s value is kept — and it never touches
`a`'s android_target_api_level or arm_thumb_mode, which keep `a`'s values
for every `o`. -/
theorem claim_C10 :
    ∀ (a o : Settings),
      (a.merge_mut o).warning_level =
        (if o.warning_level.isSome then o.warning_level else a.warning_level) ∧
      (a.merge_mut o).warning_as_error =
        (if o.warning_as_error.isSome then o.warning_as_error else a.warning_as_error) ∧
      (a.merge_mut o).optimize = (if o.optimize.isSome then o.optimize else a.optimize) ∧
      (a.merge_mut o).strict_aliasing =
        (if o.strict_aliasing.isSome then o.strict_aliasing else a.strict_aliasing) ∧
      (a.merge_mut o).omit_frame_pointer =
        (if o.omit_frame_pointer.isSome then o.omit_frame_pointer else a.omit_frame_pointer) ∧
      (a.merge_mut o).enable_exceptions =
        (if o.enable_exceptions.isSome then o.enable_exceptions else a.enable_exceptions) ∧
      (a.merge_mut o).enable_rtti =
        (if o.enable_rtti.isSome then o.enable_rtti else a.enable_rtti) ∧
      (a.merge_mut o).c_standard =
        (if o.c_standard.isSome then o.c_standard else a.c_standard) ∧
      (a.merge_mut o).cxx_standard =
        (if o.cxx_standard.isSome then o.cxx_standard else a.cxx_standard) ∧
      (a.merge_mut o).link_incremental =
        (if o.link_incremental.isSome then o.link_incremental else a.link_incremental) ∧
      (a.merge_mut o).android_target_api_level = a.android_target_api_level ∧
      (a.merge_mut o).arm_thumb_mode = a.arm_thumb_mode :=
  fun _ _ =>
    ⟨merge_opt_mut_eq _ _, merge_opt_mut_eq _ _, merge_opt_mut_eq _ _,
      merge_opt_mut_eq _ _, merge_opt_mut_eq _ _, merge_opt_mut_eq _ _,
      merge_opt_mut_eq _ _, merge_opt_mut_eq _ _, merge_opt_mut_eq _ _,
      merge_opt_mut_eq _ _, rfl, rfl⟩

end Janky
